import Mathlib

/-!
Verification of the zlint-gtld-update TLD validity table builder and of the
lint execution engine contract, against a shallow embedding of the sources.

The builder (`main` package, `renderGTLDMap` and friends) is embedded from the
Go sources: network fetches and JSON decoding are abstracted as `Except`-valued
inputs (a fetch or unmarshal failure is an `Except.error`), strings are Lean
`String`s, and the Go string helpers used by the code (`strings.Split`,
`strings.TrimSpace` emptiness, `strings.HasPrefix`, `strings.ToLower`) are
re-implemented over `List Char` so that every definition evaluates inside the
kernel.  The Go `map[string]util.GTLDPeriod` is embedded as an association
list with in-place update, which models both the key-set semantics and the
deterministic (key-sorted) iteration order of the template rendering step.
-/

namespace GTLDBuild

/-- Splits a character list at every occurrence of the separator, keeping
empty segments, exactly like Go's `strings.Split` with a one-character
separator: the result has one segment more than there are separators. -/
def splitOnChar (sep : Char) : List Char → List (List Char)
  | [] => [[]]
  | c :: cs =>
    let r := splitOnChar sep cs
    if c = sep then [] :: r
    else
      match r with
      | [] => [[c]]
      | g :: gs => (c :: g) :: gs

/-- Splits a string into its newline-separated lines, as
`strings.Split(s, "\n")` does in `getTLDData`. -/
def splitLines (s : String) : List String :=
  (splitOnChar '\n' s.data).map String.mk

/-- Lower-cases a string character by character, as `strings.ToLower` does on
the ASCII labels handled by the builder. -/
def lowerString (s : String) : String :=
  String.mk (s.data.map Char.toLower)

/-- True when the line is empty or all whitespace, i.e.
`strings.TrimSpace(line) == ""` in `getTLDData`. -/
def isBlankLine (s : String) : Bool :=
  s.data.all Char.isWhitespace

/-- True when the string starts with the given character, i.e.
`strings.HasPrefix(s, "#")` for the header-comment check in `getTLDData`. -/
def startsWithChar (s : String) (c : Char) : Bool :=
  match s.data with
  | [] => false
  | d :: _ => d = c

/-- GTLDPeriod is the `util.GTLDPeriod` record: a domain label together with
its delegation date and removal date strings (an empty removal date means the
TLD has not been removed). -/
structure GTLDPeriod where
  GTLD : String
  DelegationDate : String
  RemovalDate : String
deriving Repr, DecidableEq

/-- True when every character of the list is a decimal digit. -/
def isDigits (cs : List Char) : Bool :=
  cs.all fun c => decide ('0' ≤ c ∧ c ≤ '9')

/-- The numeric value of a list of decimal digit characters. -/
def digitsVal (cs : List Char) : Nat :=
  cs.foldl (fun acc c => acc * 10 + (c.toNat - 48)) 0

/-- The number of days of a month in the proleptic Gregorian calendar. -/
def daysInMonth (y m : Nat) : Nat :=
  if m = 2 then
    if (y % 4 = 0 ∧ ¬y % 100 = 0) ∨ y % 400 = 0 then 29 else 28
  else if m = 4 ∨ m = 6 ∨ m = 9 ∨ m = 11 then 30 else 31

/-- Modelled from the spec: `time.Parse` with the fixed date format
`util.GTLDPeriodDateFormat` — the `util` package itself is not among the
sources, and the spec describes the format as a fixed calendar-date format
whose instances are dates such as `1985-01-01` and `2015-02-18`.  The parser
accepts `year-month-day` with a four-digit year, a one- or two-digit month in
`1..12`, and a one- or two-digit day valid for that month. -/
def parseDate (s : String) : Option (Nat × Nat × Nat) :=
  match splitOnChar '-' s.data with
  | [ys, ms, ds] =>
    if isDigits ys ∧ isDigits ms ∧ isDigits ds ∧ ys.length = 4 ∧
        1 ≤ ms.length ∧ ms.length ≤ 2 ∧ 1 ≤ ds.length ∧ ds.length ≤ 2 then
      let y := digitsVal ys
      let m := digitsVal ms
      let d := digitsVal ds
      if 1 ≤ m ∧ m ≤ 12 ∧ 1 ≤ d ∧ d ≤ daysInMonth y m then some (y, m, d)
      else none
    else none
  | _ => none

/-- One line of the ICANN TLD list, as processed by the loop body of
`getTLDData`: blank lines and header comment lines are skipped, every other
line yields a lower-cased label with the `.com` default delegation date
`1985-01-01` and no removal date. -/
def tldLineEntry (tld : String) : Option GTLDPeriod :=
  if isBlankLine tld || startsWithChar tld '#' then none
  else some ⟨lowerString tld, "1985-01-01", ""⟩

/-- The `getTLDData` body after the fetch: split the response into lines and
build the default-dated entries, skipping blank and comment lines. -/
def getTLDData (respBody : String) : List GTLDPeriod :=
  (splitLines respBody).filterMap tldLineEntry

/-- The `delegatedGTLDs` filter: drop every entry whose delegation date is
empty (never delegated). -/
def delegatedGTLDs (entries : List GTLDPeriod) : List GTLDPeriod :=
  entries.filter fun g => g.DelegationDate ≠ ""

/-- The `validateGTLDs` loop: every entry must have a parseable delegation
date, and a parseable removal date when the removal date is non-empty; the
first failure aborts with an error. -/
def validateGTLDs : List GTLDPeriod → Except String Unit
  | [] => Except.ok ()
  | g :: rest =>
    if parseDate g.DelegationDate = none then
      Except.error ("cannot parse delegation date " ++ g.DelegationDate)
    else if g.RemovalDate ≠ "" ∧ parseDate g.RemovalDate = none then
      Except.error ("cannot parse removal date " ++ g.RemovalDate)
    else validateGTLDs rest

/-- The embedding of the Go string-keyed map: an association list whose keys
are unique by construction.  `updEntry` is map assignment `m[k] = v`:
it replaces the value in place when the key exists and appends otherwise. -/
def updEntry : List (String × GTLDPeriod) → String → GTLDPeriod → List (String × GTLDPeriod)
  | [], k, v => [(k, v)]
  | (k', v') :: rest, k, v =>
    if k' = k then (k, v) :: rest else (k', v') :: updEntry rest k v

/-- Map lookup `m[k]`, yielding the stored value when the key is present. -/
def lookupTLD (m : List (String × GTLDPeriod)) (k : String) : Option GTLDPeriod :=
  (m.find? fun p => p.1 == k).map fun p => p.2

/-- The first `renderGTLDMap` insertion loop: every delegated gTLD entry is
assigned into the map under its label, later entries overwriting earlier
ones. -/
def insertGTLDs (m : List (String × GTLDPeriod)) : List GTLDPeriod → List (String × GTLDPeriod)
  | [] => m
  | t :: rest => insertGTLDs (updEntry m t.GTLD t) rest

/-- The second `renderGTLDMap` insertion loop: a TLD-list entry is assigned
into the map only when its label is not already present. -/
def insertTLDs (m : List (String × GTLDPeriod)) : List GTLDPeriod → List (String × GTLDPeriod)
  | [] => m
  | t :: rest =>
    insertTLDs (if (lookupTLD m t.GTLD).isSome then m else updEntry m t.GTLD t) rest

/-- The `tldMap` value built inside `renderGTLDMap` from the gTLD feed entries
and the TLD list response body: delegated Source A entries first, then Source
B entries for labels not already present. -/
def buildTable (gtldEntries : List GTLDPeriod) (tldBody : String) : List (String × GTLDPeriod) :=
  insertTLDs (insertGTLDs [] (delegatedGTLDs gtldEntries)) (getTLDData tldBody)

/-- Byte-wise lexicographic comparison of character lists; on the UTF-8
strings involved this is the ordering Go's template uses to iterate the keys
of a string-keyed map. -/
def charListLe : List Char → List Char → Bool
  | [], _ => true
  | _ :: _, [] => false
  | a :: as, b :: bs =>
    if a.toNat < b.toNat then true
    else if b.toNat < a.toNat then false
    else charListLe as bs

/-- Inserts a key-value pair into a key-sorted association list. -/
def insertSorted (x : String × GTLDPeriod) : List (String × GTLDPeriod) → List (String × GTLDPeriod)
  | [] => [x]
  | y :: ys => if charListLe x.1.data y.1.data then x :: y :: ys else y :: insertSorted x ys

/-- Sorts the map's entries by key, the order in which the template visits a
string-keyed map. -/
def sortByKey : List (String × GTLDPeriod) → List (String × GTLDPeriod)
  | [] => []
  | x :: xs => insertSorted x (sortByKey xs)

/-- The special-cased `.onion` entry that the `gTLDMapTemplate` text appends
after the ranged map entries, with the fixed CABF ballot delegation date. -/
def onionPeriod : GTLDPeriod :=
  ⟨"onion", "2015-02-18", ""⟩

/-- The sequence of entries the rendered `gTLDMapTemplate` output contains:
the map's entries in key order followed by the hard-coded `.onion` entry. -/
def renderedEntries (m : List (String × GTLDPeriod)) : List GTLDPeriod :=
  (sortByKey m).map (fun p => p.2) ++ [onionPeriod]

/-- Writer embeds the `io.Writer` handed to `renderGTLDMap`: the list of
chunks written so far, plus a flag making every write fail, which models a
destination that cannot be written. -/
structure Writer where
  broken : Bool
  chunks : List (List GTLDPeriod)
deriving Repr, DecidableEq

/-- One `writer.Write` call: fails on a broken writer, otherwise appends the
rendered chunk. -/
def writeTo (w : Writer) (out : List GTLDPeriod) : Except String Writer :=
  if w.broken then Except.error "write error" else Except.ok ⟨w.broken, w.chunks ++ [out]⟩

/-- The `renderGTLDMap` pipeline.  `gtldFeed` is the outcome of
`getGTLDData()` (fetch plus JSON unmarshal of Source A), `tldFeed` the outcome
of fetching the raw Source B body; an `Except.error` input is a fetch or parse
failure.  The pipeline validates the delegated Source A entries, builds the
table, renders it, and performs the single write at the very end. -/
def renderGTLDMap (gtldFeed : Except String (List GTLDPeriod))
    (tldFeed : Except String String) (w : Writer) : Except String Unit × Writer :=
  match gtldFeed with
  | Except.error e => (Except.error e, w)
  | Except.ok allGTLDs =>
    match validateGTLDs (delegatedGTLDs allGTLDs) with
    | Except.error e => (Except.error e, w)
    | Except.ok _ =>
      match tldFeed with
      | Except.error e => (Except.error e, w)
      | Except.ok tldBody =>
        let out := renderedEntries (buildTable allGTLDs tldBody)
        match writeTo w out with
        | Except.error e => (Except.error e, w)
        | Except.ok w' => (Except.ok (), w')

/-- The `main` function when an explicit output filename is supplied: the file
is opened with `O_CREATE|O_TRUNC`, which discards `priorContents` before any
feed is fetched, and `renderGTLDMap` then writes into the fresh empty file.
The result is the process outcome (`true` for exit 0) paired with the final
contents of the destination file. -/
def mainRun (priorContents : List (List GTLDPeriod)) (broken : Bool)
    (gtldFeed : Except String (List GTLDPeriod)) (tldFeed : Except String String) :
    Bool × List (List GTLDPeriod) :=
  let truncated : Writer := ⟨broken, []⟩
  match renderGTLDMap gtldFeed tldFeed truncated with
  | (Except.ok _, w') => (true, w'.chunks)
  | (Except.error _, w') => (false, w'.chunks)

end GTLDBuild

namespace LintEngine

/-- Modelled from the spec: the fixed verdict set of the lint engine
(`LintStatus` in the zlint sources, which are not under the repository
snapshot — only a test referencing them is). -/
inductive LintStatus where
  | NA
  | Pass
  | Warn
  | Error
  | Fatal
deriving Repr, DecidableEq

/-- Modelled from the spec: a lint result is a status from the fixed set plus
an optional human-readable detail string. -/
structure LintResult where
  Status : LintStatus
  Details : String
deriving Repr, DecidableEq

/-- Modelled from the spec: the only certificate property the engine contract
depends on is the issuance date (`NotBefore`), embedded as an integer
timestamp. -/
structure Certificate where
  NotBefore : Int
deriving Repr, DecidableEq

/-- Modelled from the spec: a lint is a named check with an optional
effective-date window, an applicability predicate and a verdict function.
Either of the two functions may raise an unexpected fault, embedded as the
`Except.error` case carrying the fault's diagnostic message. -/
structure Lint where
  Name : String
  EffectiveWindow : Option (Int × Int)
  CheckApplies : Certificate → Except String Bool
  RunCheck : Certificate → Except String LintResult

/-- Modelled from the spec: whether the certificate's issuance date falls
inside the lint's effective window [start, end); a lint with no declared
window is always in force. -/
def effectiveAt (l : Lint) (c : Certificate) : Bool :=
  match l.EffectiveWindow with
  | some w => decide (w.1 ≤ c.NotBefore ∧ c.NotBefore < w.2)
  | none => true

/-- Modelled from the spec: the applicability and verdict phases of
`execute`, with faults from either phase contained and converted to a
`Fatal` result carrying the diagnostic message. -/
def executeApplies (l : Lint) (c : Certificate) : LintResult :=
  match l.CheckApplies c with
  | Except.error msg => ⟨LintStatus.Fatal, msg⟩
  | Except.ok false => ⟨LintStatus.NA, ""⟩
  | Except.ok true =>
    match l.RunCheck c with
    | Except.error msg => ⟨LintStatus.Fatal, msg⟩
    | Except.ok r => r

/-- Modelled from the spec: `execute(lint, certificate)` — the effectivity
check first, returning `NotApplicable` outside the window, then the
applicability and verdict phases with fault containment. -/
def execute (l : Lint) (c : Certificate) : LintResult :=
  if effectiveAt l c then executeApplies l c else ⟨LintStatus.NA, ""⟩

/-- Modelled from the spec: batch execution over a list of registered lints,
one result per lint. -/
def executeAll (ls : List Lint) (c : Certificate) : List LintResult :=
  ls.map fun l => execute l c

/-- The expectation table of `TestEtsiTypeAsQcStmt` in
`lint_qcstatem_etsi_type_as_statem_test.go`: fixture certificate file name to
the status the lint `e_qcstatem_etsi_type_as_statem` must produce on it. -/
def etsiTypeAsStatemExpected : List (String × LintStatus) :=
  [("QcStmtEtsiQcTypeAsQcStmtCert10.pem", LintStatus.Error),
   ("QcStmtEtsiTaggedValueCert20.pem", LintStatus.Error),
   ("QcStmtEtsiValidCert03.pem", LintStatus.Pass),
   ("QcStmtEtsiEsealValidCert02.pem", LintStatus.Pass),
   ("QcStmtEtsiTwoQcTypesCert15.pem", LintStatus.Pass),
   ("QcStmtEtsiNoQcStatmentsCert22.pem", LintStatus.NA),
   ("QcStmtEtsiValidCert24.pem", LintStatus.Pass)]

/-- Modelled from the spec: the status that executing the lint
`e_qcstatem_etsi_type_as_statem` yields on a named fixture certificate.  The
lint's implementation and the PEM fixtures are not among the sources; the
spec's concrete scenario together with the test table fixes the outcome for
the seven fixtures. -/
def etsiTypeAsStatemRun (fixture : String) : Option LintStatus :=
  (etsiTypeAsStatemExpected.find? fun p => p.1 == fixture).map fun p => p.2

end LintEngine

namespace GTLDBuild

theorem lookupTLD_updEntry_self (m : List (String × GTLDPeriod)) (k : String) (v : GTLDPeriod) :
    lookupTLD (updEntry m k v) k = some v := by
  induction m with
  | nil => simp [updEntry, lookupTLD]
  | cons p rest ih =>
    obtain ⟨k', v'⟩ := p
    by_cases h : k' = k
    · simp [updEntry, h, lookupTLD]
    · simpa [updEntry, h, lookupTLD, List.find?_cons] using ih

theorem lookupTLD_updEntry_ne (m : List (String × GTLDPeriod)) (k' k : String) (v : GTLDPeriod)
    (h : k' ≠ k) : lookupTLD (updEntry m k' v) k = lookupTLD m k := by
  induction m with
  | nil => simp [updEntry, lookupTLD, h]
  | cons p rest ih =>
    obtain ⟨k'', v''⟩ := p
    by_cases h2 : k'' = k'
    · simp [updEntry, h2, lookupTLD, List.find?_cons, h]
    · by_cases h3 : k'' = k
      · subst h3
        simp [updEntry, h2, lookupTLD, List.find?_cons]
      · simpa [updEntry, h2, lookupTLD, List.find?_cons, h3] using ih

theorem lookupTLD_insertGTLDs (l : List GTLDPeriod) (m : List (String × GTLDPeriod)) (k : String) :
    lookupTLD (insertGTLDs m l) k =
      (l.reverse.find? fun a => a.GTLD == k).or (lookupTLD m k) := by
  induction l generalizing m with
  | nil => simp [insertGTLDs]
  | cons t rest ih =>
    rw [insertGTLDs, ih, List.reverse_cons, List.find?_append, Option.or_assoc]
    congr 1
    by_cases h : t.GTLD = k
    · subst h
      simp [lookupTLD_updEntry_self, List.find?_cons, Option.or]
    · have hb : (t.GTLD == k) = false := by simp [h]
      simp [List.find?_cons, hb, lookupTLD_updEntry_ne _ _ _ _ h, Option.none_or]

theorem lookupTLD_insertTLDs (l : List GTLDPeriod) (m : List (String × GTLDPeriod)) (k : String) :
    lookupTLD (insertTLDs m l) k = (lookupTLD m k).or (l.find? fun b => b.GTLD == k) := by
  induction l generalizing m with
  | nil => simp [insertTLDs, Option.or_none]
  | cons t rest ih =>
    rw [insertTLDs, ih]
    by_cases hm : (lookupTLD m t.GTLD).isSome
    · rw [if_pos hm]
      by_cases h : t.GTLD = k
      · subst h
        obtain ⟨v, hv⟩ := Option.isSome_iff_exists.mp hm
        simp [hv, List.find?_cons, Option.or]
      · have hb : (t.GTLD == k) = false := by simp [h]
        simp [List.find?_cons, hb]
    · rw [if_neg hm]
      have hnone : lookupTLD m t.GTLD = none := Option.not_isSome_iff_eq_none.mp hm
      by_cases h : t.GTLD = k
      · subst h
        simp [lookupTLD_updEntry_self, hnone, List.find?_cons, Option.or]
      · have hb : (t.GTLD == k) = false := by simp [h]
        simp [lookupTLD_updEntry_ne _ _ _ _ h, List.find?_cons, hb]

/-- The merged table lookup: the last delegated Source A entry with the label
when there is one, otherwise the first Source B entry with the label. -/
theorem lookupTLD_buildTable (as : List GTLDPeriod) (body : String) (k : String) :
    lookupTLD (buildTable as body) k =
      ((delegatedGTLDs as).reverse.find? fun a => a.GTLD == k).or
        ((getTLDData body).find? fun b => b.GTLD == k) := by
  rw [buildTable, lookupTLD_insertTLDs, lookupTLD_insertGTLDs]
  simp [lookupTLD, Option.or_none]

/-- Every Source B entry is the lower-cased form of some feed line, with the
default delegation date and no removal date. -/
theorem getTLDData_entry_shape (body : String) (b : GTLDPeriod) (hb : b ∈ getTLDData body) :
    ∃ line ∈ splitLines body, ¬(isBlankLine line || startsWithChar line '#') = true ∧
      b = ⟨lowerString line, "1985-01-01", ""⟩ := by
  rw [getTLDData] at hb
  obtain ⟨line, hline, hsome⟩ := List.mem_filterMap.mp hb
  refine ⟨line, hline, ?_, ?_⟩
  · intro hskip
    rw [tldLineEntry, if_pos hskip] at hsome
    cases hsome
  · by_cases hskip : (isBlankLine line || startsWithChar line '#') = true
    · rw [tldLineEntry, if_pos hskip] at hsome
      cases hsome
    · rw [tldLineEntry, if_neg hskip] at hsome
      exact (Option.some_inj.mp hsome).symm

/-- Two Source B entries with the same label are identical: the label fixes
the whole record, because the delegation date is the constant default and the
removal date is empty. -/
theorem getTLDData_entry_const (body : String) (k : String) (b : GTLDPeriod)
    (hb : b ∈ getTLDData body) (hk : b.GTLD = k) : b = ⟨k, "1985-01-01", ""⟩ := by
  obtain ⟨line, _, _, hshape⟩ := getTLDData_entry_shape body b hb
  subst hshape
  simpa using hk

/-- On the Source B entries, searching forward and searching backward for a
label find the same record, since all records with that label coincide. -/
theorem getTLDData_find?_eq_reverse (body : String) (k : String) :
    ((getTLDData body).find? fun b => b.GTLD == k) =
      ((getTLDData body).reverse.find? fun b => b.GTLD == k) := by
  cases hf : (getTLDData body).find? fun b => b.GTLD == k with
  | none =>
    rw [List.find?_eq_none] at hf
    symm
    rw [List.find?_eq_none]
    intro x hx
    exact hf x (List.mem_reverse.mp hx)
  | some v =>
    have hv : v.GTLD = k := by simpa using List.find?_some hf
    have hm : v ∈ getTLDData body := List.mem_of_find?_eq_some hf
    cases hg : (getTLDData body).reverse.find? fun b => b.GTLD == k with
    | none =>
      rw [List.find?_eq_none] at hg
      exact absurd (by simpa using hv) (hg v (List.mem_reverse.mpr hm))
    | some w =>
      have hw : w.GTLD = k := by simpa using List.find?_some hg
      have hmw : w ∈ getTLDData body := List.mem_reverse.mp (List.mem_of_find?_eq_some hg)
      rw [getTLDData_entry_const body k v hm hv, getTLDData_entry_const body k w hmw hw]

/-- A validation failure anywhere in the list makes `validateGTLDs` return an
error. -/
theorem validateGTLDs_error (l : List GTLDPeriod)
    (h : ∃ g ∈ l, parseDate g.DelegationDate = none ∨
        (g.RemovalDate ≠ "" ∧ parseDate g.RemovalDate = none)) :
    ∃ e, validateGTLDs l = Except.error e := by
  induction l with
  | nil => simp at h
  | cons g rest ih =>
    by_cases h1 : parseDate g.DelegationDate = none
    · exact ⟨_, by rw [validateGTLDs, if_pos h1]⟩
    · by_cases h2 : g.RemovalDate ≠ "" ∧ parseDate g.RemovalDate = none
      · exact ⟨_, by rw [validateGTLDs, if_neg h1, if_pos h2]⟩
      · obtain ⟨g', hg', hbad⟩ := h
        rcases List.mem_cons.mp hg' with rfl | hrest
        · rcases hbad with hbad | hbad
          · exact absurd hbad h1
          · exact absurd hbad h2
        · obtain ⟨e, he⟩ := ih ⟨g', hrest, hbad⟩
          exact ⟨e, by rw [validateGTLDs, if_neg h1, if_neg h2, he]⟩

/-- When `renderGTLDMap` fails, the writer is untouched: the single write is
the last step of the pipeline. -/
theorem renderGTLDMap_error_no_write (gtldFeed : Except String (List GTLDPeriod))
    (tldFeed : Except String String) (w : Writer) (e : String)
    (h : (renderGTLDMap gtldFeed tldFeed w).1 = Except.error e) :
    (renderGTLDMap gtldFeed tldFeed w).2 = w := by
  rcases gtldFeed with e' | allG
  · rfl
  · cases hv : validateGTLDs (delegatedGTLDs allG) with
    | error e' => simp [renderGTLDMap, hv]
    | ok u =>
      rcases tldFeed with e' | body
      · simp [renderGTLDMap, hv]
      · by_cases hb : w.broken
        · simp [renderGTLDMap, hv, writeTo, hb]
        · simp [renderGTLDMap, hv, writeTo, hb] at h

end GTLDBuild

namespace LintEngine

/-- C1: for every lint and every certificate, `execute` returns exactly one
result whose status lies in the fixed five-valued outcome set
{NotApplicable, Pass, Warn, Error, Fatal}; an unexpected fault raised inside
the applicability predicate or the check logic is caught at the `execute`
boundary and converted into a `Fatal` result carrying the diagnostic message
instead of propagating; and batch evaluation still yields one result for
every lint of the batch. -/
theorem C1_execute_total_and_fault_contained (l : Lint) (c : Certificate) :
    ((execute l c).Status = LintStatus.NA ∨ (execute l c).Status = LintStatus.Pass ∨
      (execute l c).Status = LintStatus.Warn ∨ (execute l c).Status = LintStatus.Error ∨
      (execute l c).Status = LintStatus.Fatal) ∧
    (∀ msg, effectiveAt l c = true → l.CheckApplies c = Except.error msg →
      execute l c = ⟨LintStatus.Fatal, msg⟩) ∧
    (∀ msg, effectiveAt l c = true → l.CheckApplies c = Except.ok true →
      l.RunCheck c = Except.error msg → execute l c = ⟨LintStatus.Fatal, msg⟩) ∧
    (∀ ls : List Lint, (executeAll ls c).length = ls.length) := by
  refine ⟨?_, ?_, ?_, ?_⟩
  · cases h : (execute l c).Status <;> simp
  · intro msg heff happ
    simp [execute, heff, executeApplies, happ]
  · intro msg heff happ hrun
    simp [execute, heff, executeApplies, happ, hrun]
  · intro ls
    simp [executeAll]

/-- A lint whose applicability predicate raises an unexpected fault, together
with a certificate, used to exhibit the fault containment of C1. -/
def c1FaultyLint : Lint :=
  ⟨"w_demo_faulty", none, fun _ => Except.error "applies blew up",
    fun _ => Except.ok ⟨LintStatus.Pass, ""⟩⟩

def c1Cert : Certificate := ⟨0⟩

theorem C1_witness :
    effectiveAt c1FaultyLint c1Cert = true ∧
    c1FaultyLint.CheckApplies c1Cert = Except.error "applies blew up" ∧
    execute c1FaultyLint c1Cert = ⟨LintStatus.Fatal, "applies blew up"⟩ :=
  ⟨rfl, rfl,
    (C1_execute_total_and_fault_contained c1FaultyLint c1Cert).2.1 "applies blew up" rfl rfl⟩

/-- C4: a lint declaring an effective window [start, end) returns
`NotApplicable` for every certificate issued strictly before the start or at
or after the end, whatever its applicability predicate and check logic do. -/
theorem C4_effectivity_window (l : Lint) (c : Certificate) (s e : Int)
    (hw : l.EffectiveWindow = some (s, e)) (h : c.NotBefore < s ∨ e ≤ c.NotBefore) :
    execute l c = ⟨LintStatus.NA, ""⟩ := by
  have heff : effectiveAt l c = false := by
    rw [effectiveAt, hw]
    simp only [decide_eq_false_iff_not]
    omega
  simp [execute, heff]

/-- A lint with effective window [10, 20) whose check logic would report an
`Error`, and a certificate issued before the window start. -/
def c4WindowedLint : Lint :=
  ⟨"w_demo_windowed", some (10, 20), fun _ => Except.ok true,
    fun _ => Except.ok ⟨LintStatus.Error, "violated"⟩⟩

def c4EarlyCert : Certificate := ⟨5⟩

theorem C4_witness :
    c4WindowedLint.EffectiveWindow = some (10, 20) ∧ c4EarlyCert.NotBefore < 10 ∧
    execute c4WindowedLint c4EarlyCert = ⟨LintStatus.NA, ""⟩ :=
  ⟨rfl, by decide,
    C4_effectivity_window c4WindowedLint c4EarlyCert 10 20 rfl (Or.inl (by decide))⟩

/-- C9: executing the lint `e_qcstatem_etsi_type_as_statem` over the seven
fixture certificates of its test yields, in the claimed order, the statuses
Error, Error, Pass, Pass, Pass, NotApplicable, Pass. -/
theorem C9_etsi_fixture_statuses :
    (["QcStmtEtsiQcTypeAsQcStmtCert10.pem", "QcStmtEtsiTaggedValueCert20.pem",
      "QcStmtEtsiValidCert03.pem", "QcStmtEtsiEsealValidCert02.pem",
      "QcStmtEtsiTwoQcTypesCert15.pem", "QcStmtEtsiNoQcStatmentsCert22.pem",
      "QcStmtEtsiValidCert24.pem"].map etsiTypeAsStatemRun) =
      [some LintStatus.Error, some LintStatus.Error, some LintStatus.Pass,
       some LintStatus.Pass, some LintStatus.Pass, some LintStatus.NA,
       some LintStatus.Pass] := by decide

end LintEngine

namespace GTLDBuild

/-- C2: when any retained (delegated) Source A entry has an unparseable
delegation date, or a non-empty unparseable removal date, the builder returns
an error and the writer is left exactly as it was — zero bytes of table
content are emitted. -/
theorem C2_validation_failure_no_output (allGTLDs : List GTLDPeriod)
    (tldFeed : Except String String) (w : Writer)
    (h : ∃ g ∈ delegatedGTLDs allGTLDs, parseDate g.DelegationDate = none ∨
        (g.RemovalDate ≠ "" ∧ parseDate g.RemovalDate = none)) :
    ∃ e, renderGTLDMap (Except.ok allGTLDs) tldFeed w = (Except.error e, w) := by
  obtain ⟨e, he⟩ := validateGTLDs_error _ h
  exact ⟨e, by simp [renderGTLDMap, he]⟩

theorem C2_witness :
    (∃ g ∈ delegatedGTLDs [⟨"bad", "nope", ""⟩], parseDate g.DelegationDate = none ∨
        (g.RemovalDate ≠ "" ∧ parseDate g.RemovalDate = none)) ∧
    ∃ e, renderGTLDMap (Except.ok [⟨"bad", "nope", ""⟩]) (Except.ok "com\nnet")
        ⟨false, [[onionPeriod]]⟩ = (Except.error e, ⟨false, [[onionPeriod]]⟩) :=
  ⟨by decide,
    C2_validation_failure_no_output [⟨"bad", "nope", ""⟩] (Except.ok "com\nnet")
      ⟨false, [[onionPeriod]]⟩ (by decide)⟩

/-- C3: a label present among the delegated Source A entries is mapped to
Source A's record (the last Source A entry carrying that label), the record
comes from the delegated Source A list, and the looked-up value is the same
whatever the Source B feed contains — a Source B entry is never inserted for
such a label. -/
theorem C3_sourceA_precedence (as : List GTLDPeriod) (body : String) (k : String)
    (hA : ∃ a ∈ delegatedGTLDs as, a.GTLD = k) :
    ∃ v, lookupTLD (buildTable as body) k = some v ∧
      v ∈ delegatedGTLDs as ∧ v.GTLD = k ∧
      ((delegatedGTLDs as).reverse.find? fun a => a.GTLD == k) = some v ∧
      ∀ body' : String, lookupTLD (buildTable as body') k = some v := by
  obtain ⟨a, ha, hak⟩ := hA
  cases hf : (delegatedGTLDs as).reverse.find? fun x => x.GTLD == k with
  | none =>
    rw [List.find?_eq_none] at hf
    exact absurd (by simpa using hak) (hf a (List.mem_reverse.mpr ha))
  | some v =>
    refine ⟨v, ?_, ?_, ?_, rfl, ?_⟩
    · rw [lookupTLD_buildTable, hf]
      rfl
    · exact List.mem_reverse.mp (List.mem_of_find?_eq_some hf)
    · simpa using List.find?_some hf
    · intro body'
      rw [lookupTLD_buildTable, hf]
      rfl

theorem C3_witness :
    ∃ v, lookupTLD (buildTable [⟨"com", "1987-10-01", ""⟩] "com\nxyz") "com" = some v ∧
      v ∈ delegatedGTLDs [⟨"com", "1987-10-01", ""⟩] ∧ v.GTLD = "com" ∧
      ((delegatedGTLDs [⟨"com", "1987-10-01", ""⟩]).reverse.find?
        fun a => a.GTLD == "com") = some v ∧
      ∀ body' : String,
        lookupTLD (buildTable [⟨"com", "1987-10-01", ""⟩] body') "com" = some v :=
  C3_sourceA_precedence [⟨"com", "1987-10-01", ""⟩] "com\nxyz" "com" (by decide)

/-- C5: a Source B feed line that is blank or starts with '#' contributes no
table entry; every other line yields the entry with the lower-cased line as
label, delegation date 1985-01-01 and empty removal date, and when no
delegated Source A entry carries that label, the built table maps the label to
exactly that entry. -/
theorem C5_sourceB_line_handling (as : List GTLDPeriod) (body line : String)
    (hmem : line ∈ splitLines body) :
    ((isBlankLine line || startsWithChar line '#') = true → tldLineEntry line = none) ∧
    ((isBlankLine line || startsWithChar line '#') = false →
      tldLineEntry line = some ⟨lowerString line, "1985-01-01", ""⟩ ∧
      ((∀ a ∈ delegatedGTLDs as, a.GTLD ≠ lowerString line) →
        lookupTLD (buildTable as body) (lowerString line) =
          some ⟨lowerString line, "1985-01-01", ""⟩)) := by
  constructor
  · intro hskip
    rw [tldLineEntry, if_pos hskip]
  · intro hskip
    have hne : ¬(isBlankLine line || startsWithChar line '#') = true := by
      rw [hskip]
      exact Bool.false_ne_true
    refine ⟨by rw [tldLineEntry, if_neg hne], ?_⟩
    intro hA
    rw [lookupTLD_buildTable]
    have hAnone : ((delegatedGTLDs as).reverse.find?
        fun a => a.GTLD == lowerString line) = none := by
      rw [List.find?_eq_none]
      intro a hamem
      simpa using hA a (List.mem_reverse.mp hamem)
    rw [hAnone, Option.none_or]
    have hbmem : (⟨lowerString line, "1985-01-01", ""⟩ : GTLDPeriod) ∈ getTLDData body := by
      rw [getTLDData]
      exact List.mem_filterMap.mpr ⟨line, hmem, by rw [tldLineEntry, if_neg hne]⟩
    cases hf : (getTLDData body).find? fun b => b.GTLD == lowerString line with
    | none =>
      rw [List.find?_eq_none] at hf
      exact absurd (by simp) (hf _ hbmem)
    | some v =>
      have hv : v.GTLD = lowerString line := by simpa using List.find?_some hf
      rw [getTLDData_entry_const body (lowerString line) v
        (List.mem_of_find?_eq_some hf) hv]

theorem C5_witness :
    "aBc" ∈ splitLines "aBc\n#hdr\n" ∧
    tldLineEntry "aBc" = some ⟨lowerString "aBc", "1985-01-01", ""⟩ ∧
    lookupTLD (buildTable [] "aBc\n#hdr\n") (lowerString "aBc") =
      some ⟨lowerString "aBc", "1985-01-01", ""⟩ :=
  ⟨by decide,
    ((C5_sourceB_line_handling [] "aBc\n#hdr\n" "aBc" (by decide)).2 (by decide)).1,
    ((C5_sourceB_line_handling [] "aBc\n#hdr\n" "aBc" (by decide)).2 (by decide)).2 (by decide)⟩

/-- C6: whenever the builder succeeds, the single chunk written through the
writer contains the `.onion` entry with delegation date 2015-02-18 and empty
removal date, regardless of the contents of either feed. -/
theorem C6_onion_always_present (gtldFeed : Except String (List GTLDPeriod))
    (tldFeed : Except String String) (w w' : Writer)
    (h : renderGTLDMap gtldFeed tldFeed w = (Except.ok (), w')) :
    ∃ out, w'.chunks = w.chunks ++ [out] ∧ onionPeriod ∈ out ∧
      onionPeriod = ⟨"onion", "2015-02-18", ""⟩ := by
  rcases gtldFeed with e | allG
  · simp [renderGTLDMap] at h
  · cases hv : validateGTLDs (delegatedGTLDs allG) with
    | error e => simp [renderGTLDMap, hv] at h
    | ok u =>
      rcases tldFeed with e | body
      · simp [renderGTLDMap, hv] at h
      · by_cases hb : w.broken
        · simp [renderGTLDMap, hv, writeTo, hb] at h
        · refine ⟨renderedEntries (buildTable allG body), ?_, ?_, rfl⟩
          · simp [renderGTLDMap, hv, writeTo, hb] at h
            rw [← h]
          · simp [renderedEntries]

theorem C6_witness :
    ∃ out, (Writer.mk false [[onionPeriod]]).chunks = (Writer.mk false []).chunks ++ [out] ∧
      onionPeriod ∈ out ∧ onionPeriod = ⟨"onion", "2015-02-18", ""⟩ :=
  C6_onion_always_present (Except.ok []) (Except.ok "") ⟨false, []⟩ ⟨false, [[onionPeriod]]⟩ rfl

/-- C7: within one source, the label of a duplicated entry ends up bound to
the last-seen record of that source: for labels with a delegated Source A
entry the table keeps the last Source A record, and for labels only in Source
B it keeps a record equal to the last Source B record with that label. -/
theorem C7_duplicates_keep_last (as : List GTLDPeriod) (body : String) (k : String) :
    ((∃ a ∈ delegatedGTLDs as, a.GTLD = k) →
      lookupTLD (buildTable as body) k =
        ((delegatedGTLDs as).reverse.find? fun a => a.GTLD == k)) ∧
    ((∀ a ∈ delegatedGTLDs as, a.GTLD ≠ k) →
      lookupTLD (buildTable as body) k =
        ((getTLDData body).reverse.find? fun b => b.GTLD == k)) := by
  constructor
  · intro hA
    obtain ⟨a, ha, hak⟩ := hA
    rw [lookupTLD_buildTable]
    cases hf : (delegatedGTLDs as).reverse.find? fun x => x.GTLD == k with
    | none =>
      rw [List.find?_eq_none] at hf
      exact absurd (by simpa using hak) (hf a (List.mem_reverse.mpr ha))
    | some v => rfl
  · intro hA
    rw [lookupTLD_buildTable]
    have hAnone : ((delegatedGTLDs as).reverse.find? fun a => a.GTLD == k) = none := by
      rw [List.find?_eq_none]
      intro a hamem
      simpa using hA a (List.mem_reverse.mp hamem)
    rw [hAnone, Option.none_or, getTLDData_find?_eq_reverse]

theorem C7_witness :
    lookupTLD (buildTable [] "dup\nDUP") "dup" =
      ((getTLDData "dup\nDUP").reverse.find? fun b => b.GTLD == "dup") ∧
    ((getTLDData "dup\nDUP").reverse.find? fun b => b.GTLD == "dup") =
      some ⟨"dup", "1985-01-01", ""⟩ :=
  ⟨(C7_duplicates_keep_last [] "dup\nDUP" "dup").2 (by decide), by decide⟩

end GTLDBuild

namespace GTLDBuild

/-- C8 counterexample: with the Source A feed carrying the upper-case label
"COM" and the Source B feed carrying the line "COM", the built table keeps the
Source A key verbatim as "COM" — not every key is lower-case — and the merge
compares case-sensitively, so the same label in two cases yields two separate
entries rather than one. -/
theorem C8_counterexample :
    (¬ ∀ p ∈ buildTable [⟨"COM", "1987-01-01", ""⟩] "COM", lowerString p.1 = p.1) ∧
    (buildTable [⟨"COM", "1987-01-01", ""⟩] "COM").length = 2 ∧
    lookupTLD (buildTable [⟨"COM", "1987-01-01", ""⟩] "COM") "COM" =
      some ⟨"COM", "1987-01-01", ""⟩ ∧
    lookupTLD (buildTable [⟨"COM", "1987-01-01", ""⟩] "COM") "com" =
      some ⟨"com", "1985-01-01", ""⟩ := by decide

/-- C8 as amended: every value of the built table is stored under its own
label; labels inserted from Source B are the lower-cased feed lines, while
labels from delegated Source A entries are stored verbatim with no case
normalization, and the merge compares labels by exact, case-sensitive string
equality — a Source B insertion happens only when no delegated Source A entry
carries the identical label string. -/
theorem C8_amended_case_handling (as : List GTLDPeriod) (body k : String) (v : GTLDPeriod)
    (h : lookupTLD (buildTable as body) k = some v) :
    v.GTLD = k ∧
    (v ∈ delegatedGTLDs as ∨
      ((∃ line ∈ splitLines body, v = ⟨lowerString line, "1985-01-01", ""⟩) ∧
        ∀ a ∈ delegatedGTLDs as, a.GTLD ≠ k)) := by
  rw [lookupTLD_buildTable] at h
  cases hf : (delegatedGTLDs as).reverse.find? fun a => a.GTLD == k with
  | some a =>
    rw [hf] at h
    have hva : a = v := by simpa [Option.or] using h
    subst hva
    refine ⟨by simpa using List.find?_some hf, Or.inl ?_⟩
    exact List.mem_reverse.mp (List.mem_of_find?_eq_some hf)
  | none =>
    rw [hf, Option.none_or] at h
    have hv : v.GTLD = k := by simpa using List.find?_some h
    have hm : v ∈ getTLDData body := List.mem_of_find?_eq_some h
    obtain ⟨line, hline, _, hshape⟩ := getTLDData_entry_shape body v hm
    refine ⟨hv, Or.inr ⟨⟨line, hline, hshape⟩, ?_⟩⟩
    intro a ha
    rw [List.find?_eq_none] at hf
    simpa using hf a (List.mem_reverse.mpr ha)

theorem C8_amended_witness :
    lookupTLD (buildTable [⟨"COM", "1987-01-01", ""⟩] "COM") "com" =
      some ⟨"com", "1985-01-01", ""⟩ ∧
    (⟨"com", "1985-01-01", ""⟩ : GTLDPeriod).GTLD = "com" ∧
    ((⟨"com", "1985-01-01", ""⟩ : GTLDPeriod) ∈
        delegatedGTLDs [⟨"COM", "1987-01-01", ""⟩] ∨
      ((∃ line ∈ splitLines "COM",
          (⟨"com", "1985-01-01", ""⟩ : GTLDPeriod) = ⟨lowerString line, "1985-01-01", ""⟩) ∧
        ∀ a ∈ delegatedGTLDs [⟨"COM", "1987-01-01", ""⟩], a.GTLD ≠ "com")) :=
  ⟨by decide,
    (C8_amended_case_handling [⟨"COM", "1987-01-01", ""⟩] "COM" "com"
      ⟨"com", "1985-01-01", ""⟩ (by decide)).1,
    (C8_amended_case_handling [⟨"COM", "1987-01-01", ""⟩] "COM" "com"
      ⟨"com", "1985-01-01", ""⟩ (by decide)).2⟩

/-- C10: when an explicit output file is named, `main` truncates it before any
feed is fetched, so a run that afterwards fails at any pipeline step leaves
the destination file empty whatever it contained before — the
no-output-on-failure guarantee does not preserve the prior contents of an
explicit target file. -/
theorem C10_truncate_then_fail (priorContents : List (List GTLDPeriod)) (broken : Bool)
    (gtldFeed : Except String (List GTLDPeriod)) (tldFeed : Except String String) (e : String)
    (h : (renderGTLDMap gtldFeed tldFeed ⟨broken, []⟩).1 = Except.error e) :
    mainRun priorContents broken gtldFeed tldFeed = (false, []) := by
  have h2 := renderGTLDMap_error_no_write gtldFeed tldFeed ⟨broken, []⟩ e h
  rw [mainRun]
  rcases hr : renderGTLDMap gtldFeed tldFeed ⟨broken, []⟩ with ⟨r, w'⟩
  rw [hr] at h h2
  simp only at h h2
  subst h
  rw [h2]

theorem C10_witness :
    (renderGTLDMap (Except.error "fetch failure") (Except.ok "com")
        ⟨false, []⟩).1 = Except.error "fetch failure" ∧
    mainRun [[onionPeriod], [onionPeriod]] false (Except.error "fetch failure")
        (Except.ok "com") = (false, []) :=
  ⟨rfl,
    C10_truncate_then_fail [[onionPeriod], [onionPeriod]] false
      (Except.error "fetch failure") (Except.ok "com") "fetch failure" rfl⟩

end GTLDBuild
